import Mathlib

/-!
Verification of the diff-scanning rule engine of the PR review agent
(`src/analyzers/architecture.py`, `src/analyzers/code_style.py`,
`src/analyzers/security.py`, `src/core/agent.py`, `src/core/models.py`).

The Python code is shallowly embedded: each analyzer becomes a pure Lean
function over the PR context; the regular-expression sweeps are executed by a
small backtracking matcher (`reCore`) implementing the Python `re` semantics
needed by the analyzers' patterns (leftmost search, greedy and lazy
quantifiers, character classes, capture groups, IGNORECASE); fallible code
(dictionary subscripts that can raise `KeyError`) returns `Except`.
-/

/-! ### Python string helpers -/

/-- Python whitespace, as recognised by `str.strip` / `str.lstrip`. -/
def pyIsSpace (c : Char) : Bool :=
  c == ' ' || c == '\t' || c == '\n' || c == '\x0d' || c == '\x0b' || c == '\x0c'

/-- `str.lstrip()` with no argument: drop leading whitespace. -/
def pyLstrip (s : String) : String :=
  String.mk (s.toList.dropWhile pyIsSpace)

/-- `str.strip()` with no argument: drop leading and trailing whitespace. -/
def pyStrip (s : String) : String :=
  String.mk (((s.toList.dropWhile pyIsSpace).reverse.dropWhile pyIsSpace).reverse)

/-- Split a character list at newline characters (keeping a trailing empty
piece when the text ends in a newline). -/
def splitOnNl : List Char → List (List Char)
  | [] => [[]]
  | c :: rest =>
    if c = '\n' then [] :: splitOnNl rest
    else
      match splitOnNl rest with
      | [] => [[c]]
      | l :: ls => (c :: l) :: ls

/-- `str.splitlines()` for LF-separated text (the only separator the analyzed
diff texts use): split on newline characters, with no trailing empty line for
text ending in a newline, and no lines at all for the empty string. -/
def pySplitlines (s : String) : List String :=
  if s.toList = [] then []
  else
    let parts := (splitOnNl s.toList).map String.mk
    if s.toList.getLast? = some '\n' then parts.dropLast else parts

/-- Does `pat` occur at the head of `l`? (Python substring test helper.) -/
def listStartsWith : List Char → List Char → Bool
  | [], _ => true
  | _ :: _, [] => false
  | a :: as, b :: bs => if a = b then listStartsWith as bs else false

/-- Fuel-driven scan of `str.replace(pat, rep)`: replace every
non-overlapping occurrence of `pat`, scanning left to right.  The fuel is at
least the subject length, and every step consumes at least one character, so
the fuel never runs out on the subject. -/
def pyReplaceGo (pat rep : List Char) : Nat → List Char → List Char
  | 0, l => l
  | fuel + 1, l =>
    match l with
    | [] => []
    | c :: rest =>
      if pat ≠ [] ∧ listStartsWith pat (c :: rest) then
        rep ++ pyReplaceGo pat rep fuel ((c :: rest).drop pat.length)
      else
        c :: pyReplaceGo pat rep fuel rest

/-- `str.replace(pat, rep)` over character lists.  (All call sites use a
nonempty `pat`; for an empty `pat` the scan just copies.) -/
def pyReplaceList (pat rep s : List Char) : List Char :=
  pyReplaceGo pat rep s.length s

/-- `str.replace` on strings. -/
def pyReplace (s pat rep : String) : String :=
  String.mk (pyReplaceList pat.toList rep.toList s.toList)

/-! ### Regular expressions

A direct model of the fragment of Python `re` syntax used by the analyzers:
literals, character classes (with ranges and negation), `.` (any char except
newline), `\s`, `\w`, concatenation, alternation (left-preferring), greedy and
lazy `?` and `*`, counted repetition (for `{n,}`), and capture groups. -/

/-- Regular-expression abstract syntax. -/
inductive RE where
  | eps : RE
  | lit : Char → RE
  | cls : Bool → List (Char × Char) → RE
  | dot : RE
  | spc : RE
  | wrd : RE
  | seq : RE → RE → RE
  | alt : RE → RE → RE
  | star : Bool → RE → RE
  | opt : Bool → RE → RE
  | rep : Nat → RE → RE
  | group : Nat → RE → RE
deriving Repr

/-- Structural size, used to bound the matcher's fuel. -/
def reSize : RE → Nat
  | .eps | .lit _ | .cls _ _ | .dot | .spc | .wrd => 1
  | .seq a b => reSize a + reSize b + 1
  | .alt a b => reSize a + reSize b + 1
  | .star _ a => reSize a + 1
  | .opt _ a => reSize a + 1
  | .rep n a => (n + 1) * (reSize a + 1) + 1
  | .group _ a => reSize a + 1

/-- Python `\w`: ASCII letters, digits, underscore (ASCII input assumed). -/
def pyIsWord (c : Char) : Bool :=
  c.isAlpha || c.isDigit || c == '_'

/-- Case-insensitive-aware character comparison. -/
def charEqCI (ci : Bool) (pc c : Char) : Bool :=
  if ci then pc.toLower == c.toLower else pc == c

/-- Is `c` inside one of the class ranges? -/
def inRanges (ranges : List (Char × Char)) (c : Char) : Bool :=
  ranges.any (fun r => decide (r.1 ≤ c) && decide (c ≤ r.2))

/-- Character-class membership, honouring negation and IGNORECASE. -/
def clsMatches (ci neg : Bool) (ranges : List (Char × Char)) (c : Char) : Bool :=
  let m :=
    if ci then inRanges ranges c || inRanges ranges c.toLower || inRanges ranges c.toUpper
    else inRanges ranges c
  if neg then !m else m

/-- Capture list: `(group index, start, stop)`, most recent first. -/
abbrev Caps := List (Nat × Nat × Nat)

/-- Backtracking matcher in continuation-passing style over positions of the
subject `s`.  Alternation prefers its left branch, greedy quantifiers prefer
longer matches and lazy ones shorter, exactly as in Python's `re`.  `fuel`
bounds the recursion depth; `reFuel` below always supplies enough for the
analyzers' patterns. -/
def reCore (ci : Bool) (s : List Char) :
    Nat → RE → Nat → Caps → (Nat → Caps → Option (Nat × Caps)) → Option (Nat × Caps)
  | 0, _, _, _, _ => none
  | fuel + 1, r, pos, caps, k =>
    match r with
    | .eps => k pos caps
    | .lit c =>
      match s.get? pos with
      | some c2 => if charEqCI ci c c2 then k (pos + 1) caps else none
      | none => none
    | .cls neg ranges =>
      match s.get? pos with
      | some c2 => if clsMatches ci neg ranges c2 then k (pos + 1) caps else none
      | none => none
    | .dot =>
      match s.get? pos with
      | some c2 => if c2 == '\n' then none else k (pos + 1) caps
      | none => none
    | .spc =>
      match s.get? pos with
      | some c2 => if pyIsSpace c2 then k (pos + 1) caps else none
      | none => none
    | .wrd =>
      match s.get? pos with
      | some c2 => if pyIsWord c2 then k (pos + 1) caps else none
      | none => none
    | .seq a b =>
      reCore ci s fuel a pos caps (fun p cp => reCore ci s fuel b p cp k)
    | .alt a b =>
      match reCore ci s fuel a pos caps k with
      | some res => some res
      | none => reCore ci s fuel b pos caps k
    | .star lazy a =>
      if lazy then
        match k pos caps with
        | some res => some res
        | none =>
          reCore ci s fuel a pos caps (fun p cp =>
            if p = pos then none else reCore ci s fuel (.star lazy a) p cp k)
      else
        match reCore ci s fuel a pos caps (fun p cp =>
            if p = pos then none else reCore ci s fuel (.star lazy a) p cp k) with
        | some res => some res
        | none => k pos caps
    | .opt lazy a =>
      if lazy then
        match k pos caps with
        | some res => some res
        | none => reCore ci s fuel a pos caps k
      else
        match reCore ci s fuel a pos caps k with
        | some res => some res
        | none => k pos caps
    | .rep n a =>
      match n with
      | 0 => k pos caps
      | n + 1 => reCore ci s fuel a pos caps (fun p cp => reCore ci s fuel (.rep n a) p cp k)
    | .group idx a =>
      reCore ci s fuel a pos caps (fun p cp => k p ((idx, pos, p) :: cp))

/-- Fuel bound: generous product of pattern size and subject length. -/
def reFuel (r : RE) (s : List Char) : Nat :=
  (reSize r + 2) * (s.length + 2) * 8

/-- One match attempt: span `(start, stop)` plus captures. -/
structure RMatch where
  start : Nat
  stop : Nat
  caps : Caps
deriving Repr

/-- Try matching `r` anchored at position `pos`. -/
def reTryAt (ci : Bool) (r : RE) (s : List Char) (pos : Nat) : Option RMatch :=
  match reCore ci s (reFuel r s) r pos [] (fun p cp => some (p, cp)) with
  | some (stop, cp) => some ⟨pos, stop, cp⟩
  | none => none

/-- Leftmost search from `pos`: step forward until a match attempt succeeds
(Python `re.search` scanning). -/
def searchFromGo (ci : Bool) (r : RE) (s : List Char) : Nat → Nat → Option RMatch
  | 0, _ => none
  | fuel + 1, pos =>
    match reTryAt ci r s pos with
    | some m => some m
    | none => if pos < s.length then searchFromGo ci r s fuel (pos + 1) else none

/-- `re.search`-style leftmost match at or after `pos`. -/
def searchFrom (ci : Bool) (r : RE) (s : List Char) (pos : Nat) : Option RMatch :=
  searchFromGo ci r s (s.length + 1 - pos) pos

/-- `bool(re.search(r, line))`. -/
def reSearch (ci : Bool) (r : RE) (line : String) : Bool :=
  (searchFrom ci r line.toList 0).isSome

/-- `bool(re.match(r, s))`: anchored at position 0 only. -/
def reMatchBool (ci : Bool) (r : RE) (s : String) : Bool :=
  (reTryAt ci r s.toList 0).isSome

/-- `re.finditer`: all non-overlapping matches left to right; after an empty
match the scan advances one position. -/
def finditerGo (ci : Bool) (r : RE) (s : List Char) : Nat → Nat → List RMatch
  | 0, _ => []
  | fuel + 1, pos =>
    match searchFrom ci r s pos with
    | none => []
    | some m =>
      m :: finditerGo ci r s fuel (if m.stop = m.start then m.stop + 1 else m.stop)

/-- `re.finditer` over a string subject. -/
def finditer (ci : Bool) (r : RE) (s : String) : List RMatch :=
  finditerGo ci r s.toList (s.toList.length + 2) 0

/-- `match.group()`: the matched substring. -/
def RMatch.group0 (s : String) (m : RMatch) : String :=
  String.mk ((s.toList.drop m.start).take (m.stop - m.start))

/-- Look up the most recent capture of group `i`. -/
def capsFind : Caps → Nat → Option (Nat × Nat)
  | [], _ => none
  | (g, a, b) :: rest, i => if g = i then some (a, b) else capsFind rest i

/-- `match.group(1)`: most recent capture of group 1 (empty if absent). -/
def RMatch.group1 (s : String) (m : RMatch) : String :=
  match capsFind m.caps 1 with
  | some (a, b) => String.mk ((s.toList.drop a).take (b - a))
  | none => ""

/-! ### Regex notation helpers (building the analyzers' literal patterns) -/

/-- Concatenation of a list of regexes. -/
def reCat (rs : List RE) : RE :=
  rs.foldr .seq .eps

/-- A literal string of characters. -/
def reStr (cs : String) : RE :=
  reCat (cs.toList.map .lit)

/-- Left-preferring alternation of a nonempty list. -/
def reAlts : List RE → RE
  | [] => .eps
  | [r] => r
  | r :: rs => .alt r (reAlts rs)

/-- Greedy `+`. -/
def rePlus (r : RE) : RE :=
  .seq r (.star false r)

/-- Greedy `{n,}`. -/
def reAtLeast (n : Nat) (r : RE) : RE :=
  .seq (.rep n r) (.star false r)

/-! ### Data model (`src/core/models.py`) -/

/-- Severity levels for issues. -/
inductive IssueSeverity where
  | error
  | warning
  | info
  | suggestion
deriving DecidableEq, Repr

/-- One issue found during review.  The optional fields default to `none`
because the Python analyzers create issues with keyword arguments and simply
omit the fields they do not set. -/
structure Issue where
  severity : IssueSeverity
  message : String
  file_path : String
  line_number : Option Int := none
  code_snippet : Option String := none
  rule_name : String
  suggested_fix : Option String := none
deriving DecidableEq, Repr

/-- Context information about a pull request.  `diff_content` is an
insertion-ordered mapping (keys unique), modelled as an association list. -/
structure PRContext where
  pr_number : Nat
  repository : String
  base_branch : String
  head_branch : String
  files_changed : List String
  diff_content : List (String × String)
  author : String
  title : String
  description : Option String := none
deriving Repr

/-- Results of a PR review.  `review_time` and `summary` are left unset by
`review_pr` (the summary generator is an external stub returning `None`);
`stats` is the dictionary built in `review_pr`, with Python integer values. -/
structure ReviewResult where
  issues : List Issue
  summary : Option String
  review_time : Option Float
  total_files_reviewed : Nat
  stats : List (String × Int)

/-! ### Configuration (`src/core/config.py`, the parts the analyzers read) -/

/-- One architecture rule, as consumed by `ArchitectureAnalyzer._check_rule`
(a dictionary carrying `name`, `pattern`, `message` and — possibly absent —
`scope`; patterns are stored pre-compiled). -/
structure ArchRule where
  name : String
  pattern : RE
  scope : Option RE
  message : String

/-- Coding-standard thresholds read by `CodeStyleAnalyzer`. -/
structure CodingStandards where
  max_method_length : Nat
  max_nesting_depth : Nat

/-- The rule configuration reaching the analyzers. -/
structure RulesConfig where
  architecture : List ArchRule
  coding_standards : CodingStandards

/-- The agent configuration (the slice `review_pr` depends on). -/
structure AgentConfig where
  rules : RulesConfig

/-! ### Architecture analyzer (`src/analyzers/architecture.py`) -/

/-- `_file_matches_scope`: `bool(re.match(scope_pattern, file_path))`. -/
def fileMatchesScope (scopePat : RE) (file_path : String) : Bool :=
  reMatchBool false scopePat file_path

/-- The per-line loop of `_check_rule`: `for i, line in enumerate(content.splitlines(), 1)`,
emitting an `error` issue for every line where the rule's pattern finds a match. -/
def archScan (rule : ArchRule) (file_path : String) : List String → Nat → List Issue
  | [], _ => []
  | line :: rest, i =>
    (if reSearch false rule.pattern line then
      [{ severity := .error, message := rule.message, file_path := file_path,
         line_number := some (i : Int), code_snippet := some (pyStrip line),
         rule_name := rule.name }]
     else []) ++ archScan rule file_path rest (i + 1)

/-- `_check_rule`: subscripting `rule["scope"]` raises `KeyError` when the rule
has no scope entry; otherwise files outside the scope contribute nothing, and
in-scope files are scanned line by line. -/
def checkRule (file_path content : String) (rule : ArchRule) : Except String (List Issue) :=
  match rule.scope with
  | none => .error "KeyError: 'scope'"
  | some scopePat =>
    if !fileMatchesScope scopePat file_path then .ok []
    else .ok (archScan rule file_path (pySplitlines content) 1)

/-- All architecture issues of one file: extend over every rule in order; a
raised `KeyError` propagates. -/
def archFile (rules : List ArchRule) (file_path content : String) :
    Except String (List Issue) :=
  match rules with
  | [] => .ok []
  | rule :: rest =>
    match checkRule file_path content rule with
    | .error e => .error e
    | .ok v =>
      match archFile rest file_path content with
      | .error e => .error e
      | .ok vs => .ok (v ++ vs)

/-- The file loop of `ArchitectureAnalyzer.analyze` over the `diff_content`
entries in order. -/
def archAnalyzeGo (rules : List ArchRule) : List (String × String) →
    Except String (List Issue)
  | [] => .ok []
  | fc :: rest =>
    match archFile rules fc.1 fc.2 with
    | .error e => .error e
    | .ok v =>
      match archAnalyzeGo rules rest with
      | .error e => .error e
      | .ok vs => .ok (v ++ vs)

/-- `ArchitectureAnalyzer.analyze`. -/
def archAnalyze (rules : List ArchRule) (ctx : PRContext) : Except String (List Issue) :=
  archAnalyzeGo rules ctx.diff_content

/-! ### Code style analyzer (`src/analyzers/code_style.py`) -/

/-- The method-declaration heuristic
`(def|function|public|private|protected)\s+\w+\s*\([^)]*\)\s*\{?`. -/
def methodPattern : RE :=
  reCat [
    .group 1 (reAlts [reStr "def", reStr "function", reStr "public",
                      reStr "private", reStr "protected"]),
    rePlus .spc, rePlus .wrd, .star false .spc,
    .lit '(', .star false (.cls true [(')', ')')]), .lit ')',
    .star false .spc, .opt false (.lit '{')]

/-- Is this line a method declaration (`re.search(method_pattern, line)`)? -/
def isMethodDeclLine (line : String) : Bool :=
  reSearch false methodPattern line

/-- Python truthiness of the `current_method` variable (a string or `None`). -/
def truthy : Option String → Bool
  | none => false
  | some s => s ≠ ""

/-- The issue emitted by the method-length check. -/
def mlIssue (file_path : String) (maxLen : Nat) (n : Int) : Issue :=
  { severity := .warning,
    message := s!"Method exceeds maximum length of {maxLen} lines",
    file_path := file_path, line_number := some n,
    rule_name := "max_method_length",
    suggested_fix := some "Consider breaking down the method into smaller functions" }

/-- The state machine of `_check_method_length`: `i` is the 1-based line
counter, `cm` the `current_method` line, `lc` the running `line_count`.  An
issue is emitted only upon reaching a new declaration line, anchored at
`i - line_count`; running off the end of the file emits nothing. -/
def mlGo (file_path : String) (maxLen : Nat) :
    List String → Nat → Option String → Nat → List Issue
  | [], _, _, _ => []
  | line :: rest, i, cm, lc =>
    if isMethodDeclLine line then
      (if truthy cm ∧ maxLen < lc then [mlIssue file_path maxLen ((i : Int) - (lc : Int))]
       else []) ++ mlGo file_path maxLen rest (i + 1) (some line) 1
    else if truthy cm then mlGo file_path maxLen rest (i + 1) cm (lc + 1)
    else mlGo file_path maxLen rest (i + 1) cm lc

/-- `_check_method_length`. -/
def checkMethodLength (file_path content : String) (maxLen : Nat) : List Issue :=
  mlGo file_path maxLen (pySplitlines content) 1 none 0

/-- Naming-convention pattern for `class`: `class\s+([a-z][a-zA-Z0-9]*)`. -/
def classConvPat : RE :=
  reCat [reStr "class", rePlus .spc,
         .group 1 (reCat [.cls false [('a', 'z')],
                          .star false (.cls false [('a', 'z'), ('A', 'Z'), ('0', '9')])])]

/-- Naming-convention pattern for `method`: `(def|function)\s+([A-Z][a-zA-Z0-9]*)`. -/
def methodConvPat : RE :=
  reCat [.group 1 (reAlts [reStr "def", reStr "function"]), rePlus .spc,
         .group 2 (reCat [.cls false [('A', 'Z')],
                          .star false (.cls false [('a', 'z'), ('A', 'Z'), ('0', '9')])])]

/-- Naming-convention pattern for `variable`: `([A-Z][a-zA-Z0-9]*)\s*=`. -/
def variableConvPat : RE :=
  reCat [.group 1 (reCat [.cls false [('A', 'Z')],
                          .star false (.cls false [('a', 'z'), ('A', 'Z'), ('0', '9')])]),
         .star false .spc, .lit '=']

/-- The conventions table of `_check_naming_conventions`, in iteration order. -/
def namingConventions : List (String × RE) :=
  [("class", classConvPat), ("method", methodConvPat), ("variable", variableConvPat)]

/-- `_get_line_number`: `content[:pos].count('\n') + 1`. -/
def getLineNumber (content : String) (pos : Nat) : Int :=
  ((content.toList.take pos).countP (· == '\n') : Int) + 1

/-- The loop body of `_check_naming_conventions` for one conventions entry. -/
def namingIssues (file_path content : String) (p : String × RE) : List Issue :=
  (finditer false p.2 content).map (fun m =>
    { severity := .warning, message := s!"Invalid {p.1} name convention",
      file_path := file_path,
      line_number := some (getLineNumber content m.start),
      rule_name := "naming_convention",
      suggested_fix := some s!"Follow {p.1} naming convention" })

/-- The conventions loop of `_check_naming_conventions`. -/
def namingLoop (file_path content : String) : List (String × RE) → List Issue
  | [] => []
  | p :: rest => namingIssues file_path content p ++ namingLoop file_path content rest

/-- `_check_naming_conventions`: three full-text `finditer` sweeps. -/
def checkNamingConventions (file_path content : String) : List Issue :=
  namingLoop file_path content namingConventions

/-- The issue emitted by the nesting-depth check. -/
def ccIssue (file_path : String) (maxDepth i : Nat) : Issue :=
  { severity := .warning,
    message := s!"Code nesting depth exceeds maximum of {maxDepth}",
    file_path := file_path, line_number := some (i : Int),
    rule_name := "max_nesting_depth",
    suggested_fix := some "Consider restructuring to reduce nesting" }

/-- The per-line loop of `_check_complexity`: indentation width is
`len(line) - len(line.lstrip())`, depth is that divided by 4. -/
def ccGo (file_path : String) (maxDepth : Nat) : List String → Nat → List Issue
  | [], _ => []
  | line :: rest, i =>
    (if maxDepth < (line.length - (pyLstrip line).length) / 4
     then [ccIssue file_path maxDepth i] else []) ++ ccGo file_path maxDepth rest (i + 1)

/-- `_check_complexity`. -/
def checkComplexity (file_path content : String) (maxDepth : Nat) : List Issue :=
  ccGo file_path maxDepth (pySplitlines content) 1

/-- The style issues of one file: method length, naming, complexity. -/
def styleFile (cs : CodingStandards) (file_path content : String) : List Issue :=
  checkMethodLength file_path content cs.max_method_length
    ++ checkNamingConventions file_path content
    ++ checkComplexity file_path content cs.max_nesting_depth

/-- The file loop of `CodeStyleAnalyzer.analyze`. -/
def styleAnalyzeGo (cs : CodingStandards) : List (String × String) → List Issue
  | [] => []
  | fc :: rest => styleFile cs fc.1 fc.2 ++ styleAnalyzeGo cs rest

/-- `CodeStyleAnalyzer.analyze`. -/
def styleAnalyze (cs : CodingStandards) (ctx : PRContext) : List Issue :=
  styleAnalyzeGo cs ctx.diff_content

/-! ### Security analyzer (`src/analyzers/security.py`) -/

/-- The two quote characters `['\"]`. -/
def quoteCls : RE :=
  .cls false [('\'', '\''), ('"', '"')]

/-- `execute\s*\(\s*[\"'].*?\%.*?[\"']`. -/
def sqlPat1 : RE :=
  reCat [reStr "execute", .star false .spc, .lit '(', .star false .spc, quoteCls,
         .star true .dot, .lit '%', .star true .dot, quoteCls]

/-- `executemany\s*\(\s*[\"'].*?\%.*?[\"']`. -/
def sqlPat2 : RE :=
  reCat [reStr "executemany", .star false .spc, .lit '(', .star false .spc, quoteCls,
         .star true .dot, .lit '%', .star true .dot, quoteCls]

/-- `raw_connection\s*\(\s*[\"'].*?[\"']`. -/
def sqlPat3 : RE :=
  reCat [reStr "raw_connection", .star false .spc, .lit '(', .star false .spc, quoteCls,
         .star true .dot, quoteCls]

/-- `cursor\.execute\s*\([^?]*\+`. -/
def sqlPat4 : RE :=
  reCat [reStr "cursor", .lit '.', reStr "execute", .star false .spc, .lit '(',
         .star false (.cls true [('?', '?')]), .lit '+']

/-- The SQL-injection pattern list of `_check_sql_injection`, in order. -/
def sqlInjectionPatterns : List RE :=
  [sqlPat1, sqlPat2, sqlPat3, sqlPat4]

/-- The loop body of `_check_sql_injection` for one pattern. -/
def sqlIssues (file_path content : String) (pat : RE) : List Issue :=
  (finditer false pat content).map (fun m =>
    { severity := .error, message := "Potential SQL injection vulnerability detected",
      file_path := file_path,
      line_number := some (getLineNumber content m.start),
      code_snippet := some (m.group0 content),
      rule_name := "sql_injection",
      suggested_fix := some "Use parameterized queries or an ORM" })

/-- The pattern loop of `_check_sql_injection`. -/
def sqlLoop (file_path content : String) : List RE → List Issue
  | [] => []
  | pat :: rest => sqlIssues file_path content pat ++ sqlLoop file_path content rest

/-- `_check_sql_injection`: full-text `finditer` per pattern. -/
def checkSqlInjection (file_path content : String) : List Issue :=
  sqlLoop file_path content sqlInjectionPatterns

/-- Alphanumeric class `[a-zA-Z0-9]`. -/
def alnumCls : RE :=
  .cls false [('a', 'z'), ('A', 'Z'), ('0', '9')]

/-- `api[_-]?key.*?['\"]([a-zA-Z0-9]{16,})['\"]`. -/
def apiKeyPat : RE :=
  reCat [reStr "api", .opt false (.cls false [('_', '_'), ('-', '-')]), reStr "key",
         .star true .dot, quoteCls, .group 1 (reAtLeast 16 alnumCls), quoteCls]

/-- `password.*?['\"]([^'\"]{8,})['\"]`. -/
def passwordPat : RE :=
  reCat [reStr "password", .star true .dot, quoteCls,
         .group 1 (reAtLeast 8 (.cls true [('\'', '\''), ('"', '"')])), quoteCls]

/-- `secret.*?['\"]([^'\"]{8,})['\"]`. -/
def secretValuePat : RE :=
  reCat [reStr "secret", .star true .dot, quoteCls,
         .group 1 (reAtLeast 8 (.cls true [('\'', '\''), ('"', '"')])), quoteCls]

/-- `token.*?['\"]([a-zA-Z0-9_-]{8,})['\"]`. -/
def tokenPat : RE :=
  reCat [reStr "token", .star true .dot, quoteCls,
         .group 1 (reAtLeast 8 (.cls false [('a', 'z'), ('A', 'Z'), ('0', '9'),
                                            ('_', '_'), ('-', '-')])), quoteCls]

/-- The secret-pattern table of `_check_hardcoded_secrets`, in iteration order. -/
def secretPatterns : List (String × RE) :=
  [("api_key", apiKeyPat), ("password", passwordPat),
   ("secret", secretValuePat), ("token", tokenPat)]

/-- The loop body of `_check_hardcoded_secrets` for one secret type: the
snippet is `match.group()` with every occurrence of the captured group
replaced by asterisks of equal length. -/
def secretIssues (file_path content : String) (p : String × RE) : List Issue :=
  (finditer true p.2 content).map (fun m =>
    { severity := .error, message := s!"Hardcoded {p.1} detected",
      file_path := file_path,
      line_number := some (getLineNumber content m.start),
      code_snippet := some (pyReplace (m.group0 content) (m.group1 content)
        (String.mk (List.replicate (m.group1 content).length '*'))),
      rule_name := "hardcoded_secret",
      suggested_fix := some "Use environment variables or a secure secret management system" })

/-- The pattern loop of `_check_hardcoded_secrets`. -/
def secretLoop (file_path content : String) : List (String × RE) → List Issue
  | [] => []
  | p :: rest => secretIssues file_path content p ++ secretLoop file_path content rest

/-- `_check_hardcoded_secrets`: case-insensitive full-text `finditer` sweeps. -/
def checkHardcodedSecrets (file_path content : String) : List Issue :=
  secretLoop file_path content secretPatterns

/-- `debug\s*=\s*True`. -/
def debugModePat : RE :=
  reCat [reStr "debug", .star false .spc, .lit '=', .star false .spc, reStr "True"]

/-- `cors_allow_all\s*=\s*True|[\"']\\*[\"']` (note: `\\*` is *zero or more
backslashes*, so the right alternative matches two adjacent quote characters
possibly separated by backslashes). -/
def corsAllPat : RE :=
  .alt (reCat [reStr "cors_allow_all", .star false .spc, .lit '=', .star false .spc,
               reStr "True"])
       (reCat [quoteCls, .star false (.lit '\\'), quoteCls])

/-- `verify\s*=\s*False|SSL_VERIFY\s*=\s*False`. -/
def sslVerifyPat : RE :=
  .alt (reCat [reStr "verify", .star false .spc, .lit '=', .star false .spc, reStr "False"])
       (reCat [reStr "SSL_VERIFY", .star false .spc, .lit '=', .star false .spc,
               reStr "False"])

/-- The insecure-configuration table of `_check_insecure_configs`:
`(check_name, pattern, message, suggested_fix)`, in iteration order. -/
def insecureConfigPatterns : List (String × RE × String × String) :=
  [("debug_mode", debugModePat, "Debug mode enabled in configuration",
    "Disable debug mode in production environments"),
   ("cors_all", corsAllPat, "Overly permissive CORS configuration",
    "Specify allowed origins explicitly"),
   ("ssl_verify", sslVerifyPat, "SSL certificate verification disabled",
    "Enable SSL certificate verification")]

/-- The loop body of `_check_insecure_configs` for one
`(check_name, pattern, message, fix)` entry. -/
def configIssues (file_path content : String) (entry : String × RE × String × String) :
    List Issue :=
  (finditer true entry.2.1 content).map (fun m =>
    { severity := .error, message := entry.2.2.1, file_path := file_path,
      line_number := some (getLineNumber content m.start),
      code_snippet := some (m.group0 content),
      rule_name := s!"insecure_config_{entry.1}",
      suggested_fix := some entry.2.2.2 })

/-- The check loop of `_check_insecure_configs`. -/
def configLoop (file_path content : String) : List (String × RE × String × String) → List Issue
  | [] => []
  | entry :: rest => configIssues file_path content entry ++ configLoop file_path content rest

/-- `_check_insecure_configs`: case-insensitive full-text `finditer` per check. -/
def checkInsecureConfigs (file_path content : String) : List Issue :=
  configLoop file_path content insecureConfigPatterns

/-- The security issues of one file: SQL injection, secrets, configurations. -/
def secFile (file_path content : String) : List Issue :=
  checkSqlInjection file_path content
    ++ checkHardcodedSecrets file_path content
    ++ checkInsecureConfigs file_path content

/-- The file loop of `SecurityAnalyzer.analyze`. -/
def secAnalyzeGo : List (String × String) → List Issue
  | [] => []
  | fc :: rest => secFile fc.1 fc.2 ++ secAnalyzeGo rest

/-- `SecurityAnalyzer.analyze`. -/
def secAnalyze (ctx : PRContext) : List Issue :=
  secAnalyzeGo ctx.diff_content

/-! ### Review orchestration (`src/core/agent.py`, `PRReviewerAgent.review_pr`) -/

/-- `review_pr`: run the three analyzers over the context, concatenate the
externally supplied MCP issues with the local results (architecture, style,
security, in `asyncio.gather` order), and assemble the `ReviewResult`.  An
exception from an analyzer (modelled by `Except.error`) propagates: the
`except` clause re-raises, so no partial result is ever produced. -/
def reviewPr (cfg : AgentConfig) (mcpIssues : List Issue) (ctx : PRContext) :
    Except String ReviewResult :=
  match archAnalyze cfg.rules.architecture ctx with
  | .error e => .error e
  | .ok archIssues =>
    let styleIssues := styleAnalyze cfg.rules.coding_standards ctx
    let secIssues := secAnalyze ctx
    let allIssues := mcpIssues ++ archIssues ++ styleIssues ++ secIssues
    .ok { issues := allIssues,
          summary := none,
          review_time := none,
          total_files_reviewed := ctx.files_changed.length,
          stats := [("mcp_issues", (mcpIssues.length : Int)),
                    ("local_issues", (allIssues.length : Int) - (mcpIssues.length : Int)),
                    ("files_analyzed", (ctx.files_changed.length : Int))] }

/-! ### Characterisation of the method-length check -/

/-- The 1-based indices of the method-declaration lines, counting from `i`. -/
def declIdxFrom : List String → Nat → List Nat
  | [], _ => []
  | line :: rest, i =>
    if isMethodDeclLine line then i :: declIdxFrom rest (i + 1)
    else declIdxFrom rest (i + 1)

/-- The spec's reading of the method-length check: one warning for each pair
of *consecutive* declaration lines `d < d2` whose distance exceeds the
threshold, anchored at the earlier declaration `d`; the method opened by the
last declaration (and a file with at most one declaration) reports nothing —
there is no end-of-file flush. -/
def methodLengthSpec (file_path : String) (maxLen : Nat) : List Nat → List Issue
  | d :: d2 :: rest =>
    (if maxLen < d2 - d then [mlIssue file_path maxLen (d : Int)] else [])
      ++ methodLengthSpec file_path maxLen (d2 :: rest)
  | _ => []

/-- A method-declaration line is never the empty string. -/
lemma isMethodDeclLine_ne_empty {s : String} (h : isMethodDeclLine s = true) : s ≠ "" := by
  intro he
  subst he
  have : isMethodDeclLine "" = false := by decide
  rw [this] at h
  exact Bool.false_ne_true h

/-- Inside a method opened at declaration line `d`, the scanner agrees with
the consecutive-declarations characterisation. -/
lemma mlGo_some (fp : String) (maxLen : Nat) :
    ∀ (rest : List String) (i d : Nat) (s : String),
      isMethodDeclLine s = true → d ≤ i →
      mlGo fp maxLen rest i (some s) (i - d) =
        methodLengthSpec fp maxLen (d :: declIdxFrom rest i) := by
  intro rest
  induction rest with
  | nil =>
    intro i d s hs hd
    simp [mlGo, declIdxFrom, methodLengthSpec]
  | cons line rest ih =>
    intro i d s hs hd
    have hts : truthy (some s) = true := by
      simp [truthy, isMethodDeclLine_ne_empty hs]
    by_cases hdecl : isMethodDeclLine line = true
    · rw [mlGo, if_pos hdecl]
      have hih := ih (i + 1) i line hdecl (by omega)
      rw [show (i + 1) - i = 1 from by omega] at hih
      rw [hih, declIdxFrom, if_pos hdecl, methodLengthSpec]
      have hcast : ((i : Int) - ((i - d : Nat) : Int)) = (d : Int) := by
        push_cast [Nat.cast_sub hd]
        ring
      rw [hcast]
      simp [hts]
    · rw [mlGo, if_neg hdecl, if_pos hts]
      have hih := ih (i + 1) d s hs (by omega)
      rw [show (i + 1) - d = (i - d) + 1 from by omega] at hih
      rw [hih, declIdxFrom, if_neg hdecl]

/-- Before any method declaration has been seen, the scanner agrees with the
consecutive-declarations characterisation. -/
lemma mlGo_none (fp : String) (maxLen : Nat) :
    ∀ (rest : List String) (i : Nat),
      mlGo fp maxLen rest i none 0 = methodLengthSpec fp maxLen (declIdxFrom rest i) := by
  intro rest
  induction rest with
  | nil =>
    intro i
    simp [mlGo, declIdxFrom, methodLengthSpec]
  | cons line rest ih =>
    intro i
    by_cases hdecl : isMethodDeclLine line = true
    · rw [mlGo, if_pos hdecl]
      have hih := mlGo_some fp maxLen rest (i + 1) i line hdecl (by omega)
      rw [show (i + 1) - i = 1 from by omega] at hih
      rw [hih, declIdxFrom, if_pos hdecl]
      simp [truthy]
    · rw [mlGo, if_neg hdecl, if_neg (by simp [truthy]), ih (i + 1),
          declIdxFrom, if_neg hdecl]

/-- Every issue produced by the characterisation is anchored at one of the
given declaration indices. -/
lemma mem_methodLengthSpec (fp : String) (maxLen : Nat) :
    ∀ (ds : List Nat) (iss : Issue), iss ∈ methodLengthSpec fp maxLen ds →
      ∃ d, d ∈ ds ∧ iss = mlIssue fp maxLen (d : Int)
  | [], _, h => by simp [methodLengthSpec] at h
  | [d], _, h => by simp [methodLengthSpec] at h
  | d :: d2 :: rest, iss, h => by
    rw [methodLengthSpec] at h
    rcases List.mem_append.mp h with h1 | h2
    · by_cases hc : maxLen < d2 - d
      · rw [if_pos hc] at h1
        rcases List.mem_singleton.mp h1 with rfl
        exact ⟨d, by simp, rfl⟩
      · rw [if_neg hc] at h1
        simp at h1
    · obtain ⟨d0, hd0, he⟩ := mem_methodLengthSpec fp maxLen (d2 :: rest) iss h2
      exact ⟨d0, by simp at hd0 ⊢; tauto, he⟩

/-- Every declaration index counted from `i` is at least `i` and points at a
method-declaration line. -/
lemma declIdxFrom_mem :
    ∀ (lines : List String) (i d : Nat), d ∈ declIdxFrom lines i →
      i ≤ d ∧ ∃ line, lines.get? (d - i) = some line ∧ isMethodDeclLine line = true := by
  intro lines
  induction lines with
  | nil =>
    intro i d h
    simp [declIdxFrom] at h
  | cons line rest ih =>
    intro i d h
    by_cases hdecl : isMethodDeclLine line = true
    · rw [declIdxFrom, if_pos hdecl] at h
      rcases List.mem_cons.mp h with rfl | h2
      · exact ⟨le_refl d, line, by simp, hdecl⟩
      · obtain ⟨hle, l, hl, hdl⟩ := ih (i + 1) d h2
        refine ⟨by omega, l, ?_, hdl⟩
        rw [show d - i = (d - (i + 1)) + 1 from by omega]
        simpa using hl
    · rw [declIdxFrom, if_neg hdecl] at h
      obtain ⟨hle, l, hl, hdl⟩ := ih (i + 1) d h
      refine ⟨by omega, l, ?_, hdl⟩
      rw [show d - i = (d - (i + 1)) + 1 from by omega]
      simpa using hl

/-! ### Per-line characterisation of the nesting-depth check -/

/-- Every issue produced by the nesting-depth scan starting at counter `i`
is the canonical warning for some line number at least `i`. -/
lemma ccGo_mem (fp : String) (maxDepth : Nat) :
    ∀ (lines : List String) (i : Nat) (iss : Issue), iss ∈ ccGo fp maxDepth lines i →
      ∃ n : Nat, i ≤ n ∧ iss = ccIssue fp maxDepth n := by
  intro lines
  induction lines with
  | nil =>
    intro i iss h
    simp [ccGo] at h
  | cons line rest ih =>
    intro i iss h
    rw [ccGo] at h
    rcases List.mem_append.mp h with h1 | h2
    · by_cases hc : maxDepth < (line.length - (pyLstrip line).length) / 4
      · rw [if_pos hc] at h1
        rcases List.mem_singleton.mp h1 with rfl
        exact ⟨i, le_refl i, rfl⟩
      · rw [if_neg hc] at h1
        simp at h1
    · obtain ⟨n, hn, he⟩ := ih (i + 1) iss h2
      exact ⟨n, by omega, he⟩

/-- The nesting-depth scan emits, at the line with counter value `i + k`,
exactly one warning when that line's depth exceeds the threshold and none
otherwise. -/
lemma ccGo_filter (fp : String) (maxDepth : Nat) :
    ∀ (lines : List String) (i k : Nat) (line : String), lines.get? k = some line →
      (ccGo fp maxDepth lines i).filter
          (fun iss => iss.line_number == some ((i + k : Nat) : Int)) =
        (if maxDepth < (line.length - (pyLstrip line).length) / 4
         then [ccIssue fp maxDepth (i + k)] else []) := by
  intro lines
  induction lines with
  | nil =>
    intro i k line h
    simp at h
  | cons l rest ih =>
    intro i k line h
    rw [ccGo, List.filter_append]
    have htail : ∀ j : Nat, j < i + 1 →
        (ccGo fp maxDepth rest (i + 1)).filter
          (fun iss => iss.line_number == some ((j : Nat) : Int)) = [] := by
      intro j hj
      rw [List.filter_eq_nil_iff]
      intro iss hmem
      obtain ⟨n, hn, rfl⟩ := ccGo_mem fp maxDepth rest (i + 1) iss hmem
      simp [ccIssue]
      omega
    cases k with
    | zero =>
      have hl : l = line := by simpa using h
      subst hl
      have h2 : (ccGo fp maxDepth rest (i + 1)).filter
          (fun iss => iss.line_number == some ((i + 0 : Nat) : Int)) = [] :=
        htail (i + 0) (by omega)
      rw [h2, List.append_nil]
      by_cases hc : maxDepth < (l.length - (pyLstrip l).length) / 4
      · rw [if_pos hc, if_pos hc]
        simp [ccIssue]
      · rw [if_neg hc, if_neg hc]
        simp
    | succ k2 =>
      have hget : rest.get? k2 = some line := by simpa using h
      have hih := ih (i + 1) k2 line hget
      rw [show (i + 1) + k2 = i + (k2 + 1) from by omega] at hih
      rw [hih]
      have hhead : (if maxDepth < (l.length - (pyLstrip l).length) / 4
          then [ccIssue fp maxDepth i] else []).filter
            (fun iss => iss.line_number == some ((i + (k2 + 1) : Nat) : Int)) = [] := by
        by_cases hc : maxDepth < (l.length - (pyLstrip l).length) / 4
        · rw [if_pos hc]
          simp [ccIssue]
          omega
        · rw [if_neg hc]
          simp
      rw [hhead, List.nil_append]

/-- Offset-based line numbers (`content[:pos].count('\n') + 1`) are positive. -/
lemma getLineNumber_pos (content : String) (pos : Nat) : 1 ≤ getLineNumber content pos := by
  unfold getLineNumber
  omega

/-! ### Line numbers of architecture issues -/

/-- Every issue of the architecture line scan carries the 1-based index of the
line that matched, hence a number at least the starting counter. -/
lemma archScan_mem (rule : ArchRule) (fp : String) :
    ∀ (lines : List String) (i : Nat) (iss : Issue), iss ∈ archScan rule fp lines i →
      ∃ n : Nat, i ≤ n ∧ iss.line_number = some (n : Int) := by
  intro lines
  induction lines with
  | nil =>
    intro i iss h
    simp [archScan] at h
  | cons line rest ih =>
    intro i iss h
    rw [archScan] at h
    rcases List.mem_append.mp h with h1 | h2
    · by_cases hc : reSearch false rule.pattern line = true
      · rw [if_pos hc] at h1
        rcases List.mem_singleton.mp h1 with rfl
        exact ⟨i, le_refl i, rfl⟩
      · rw [if_neg hc] at h1
        simp at h1
    · obtain ⟨n, hn, he⟩ := ih (i + 1) iss h2
      exact ⟨n, by omega, he⟩

/-- Unfolding of `_check_rule` when the scope entry is present. -/
lemma checkRule_some (fp content : String) (rule : ArchRule) (sc : RE)
    (hs : rule.scope = some sc) :
    checkRule fp content rule =
      if !fileMatchesScope sc fp then .ok []
      else .ok (archScan rule fp (pySplitlines content) 1) := by
  unfold checkRule
  rw [hs]

/-- Every issue of a successful `_check_rule` has a line number at least 1. -/
lemma checkRule_ok_mem (fp content : String) (rule : ArchRule) (issues : List Issue)
    (h : checkRule fp content rule = .ok issues) :
    ∀ iss ∈ issues, ∃ n : Int, iss.line_number = some n ∧ 1 ≤ n := by
  intro iss hmem
  cases hs : rule.scope with
  | none =>
    unfold checkRule at h
    rw [hs] at h
    exact absurd h (by simp)
  | some sc =>
    rw [checkRule_some fp content rule sc hs] at h
    by_cases hm : fileMatchesScope sc fp = true
    · rw [hm] at h
      simp only [Bool.not_true, Bool.false_eq_true, if_false] at h
      rcases Except.ok.inj h with rfl
      obtain ⟨n, hn, he⟩ := archScan_mem rule fp (pySplitlines content) 1 iss hmem
      exact ⟨(n : Int), he, by omega⟩
    · rw [Bool.not_eq_true] at hm
      rw [hm] at h
      simp only [Bool.not_false, if_true] at h
      rcases Except.ok.inj h with rfl
      simp at hmem

/-- The shared positivity property of issue line numbers. -/
def linePos (iss : Issue) : Prop :=
  ∃ n : Int, iss.line_number = some n ∧ 1 ≤ n

/-- Naming-convention issues sit at positive line numbers. -/
lemma namingIssues_mem (fp content : String) (p : String × RE) (iss : Issue)
    (h : iss ∈ namingIssues fp content p) : linePos iss := by
  obtain ⟨m, _, rfl⟩ := List.mem_map.mp h
  exact ⟨getLineNumber content m.start, rfl, getLineNumber_pos content m.start⟩

/-- SQL-injection issues sit at positive line numbers. -/
lemma sqlIssues_mem (fp content : String) (pat : RE) (iss : Issue)
    (h : iss ∈ sqlIssues fp content pat) : linePos iss := by
  obtain ⟨m, _, rfl⟩ := List.mem_map.mp h
  exact ⟨getLineNumber content m.start, rfl, getLineNumber_pos content m.start⟩

/-- Hardcoded-secret issues sit at positive line numbers. -/
lemma secretIssues_mem (fp content : String) (p : String × RE) (iss : Issue)
    (h : iss ∈ secretIssues fp content p) : linePos iss := by
  obtain ⟨m, _, rfl⟩ := List.mem_map.mp h
  exact ⟨getLineNumber content m.start, rfl, getLineNumber_pos content m.start⟩

/-- Insecure-configuration issues sit at positive line numbers. -/
lemma configIssues_mem (fp content : String) (entry : String × RE × String × String)
    (iss : Issue) (h : iss ∈ configIssues fp content entry) : linePos iss := by
  obtain ⟨m, _, rfl⟩ := List.mem_map.mp h
  exact ⟨getLineNumber content m.start, rfl, getLineNumber_pos content m.start⟩

/-- Issues of the naming loop sit at positive line numbers. -/
lemma namingLoop_mem (fp content : String) :
    ∀ (l : List (String × RE)) (iss : Issue), iss ∈ namingLoop fp content l → linePos iss := by
  intro l
  induction l with
  | nil =>
    intro iss h
    simp [namingLoop] at h
  | cons p rest ih =>
    intro iss h
    rw [namingLoop] at h
    rcases List.mem_append.mp h with h1 | h2
    · exact namingIssues_mem fp content p iss h1
    · exact ih iss h2

/-- Issues of the SQL loop sit at positive line numbers. -/
lemma sqlLoop_mem (fp content : String) :
    ∀ (l : List RE) (iss : Issue), iss ∈ sqlLoop fp content l → linePos iss := by
  intro l
  induction l with
  | nil =>
    intro iss h
    simp [sqlLoop] at h
  | cons p rest ih =>
    intro iss h
    rw [sqlLoop] at h
    rcases List.mem_append.mp h with h1 | h2
    · exact sqlIssues_mem fp content p iss h1
    · exact ih iss h2

/-- Issues of the secret loop sit at positive line numbers. -/
lemma secretLoop_mem (fp content : String) :
    ∀ (l : List (String × RE)) (iss : Issue), iss ∈ secretLoop fp content l → linePos iss := by
  intro l
  induction l with
  | nil =>
    intro iss h
    simp [secretLoop] at h
  | cons p rest ih =>
    intro iss h
    rw [secretLoop] at h
    rcases List.mem_append.mp h with h1 | h2
    · exact secretIssues_mem fp content p iss h1
    · exact ih iss h2

/-- Issues of the insecure-config loop sit at positive line numbers. -/
lemma configLoop_mem (fp content : String) :
    ∀ (l : List (String × RE × String × String)) (iss : Issue),
      iss ∈ configLoop fp content l → linePos iss := by
  intro l
  induction l with
  | nil =>
    intro iss h
    simp [configLoop] at h
  | cons p rest ih =>
    intro iss h
    rw [configLoop] at h
    rcases List.mem_append.mp h with h1 | h2
    · exact configIssues_mem fp content p iss h1
    · exact ih iss h2

/-- Method-length issues are anchored at a declaration line (1-based). -/
lemma checkMethodLength_mem (fp content : String) (maxLen : Nat) (iss : Issue)
    (h : iss ∈ checkMethodLength fp content maxLen) :
    ∃ d : Nat, iss.line_number = some (d : Int) ∧ 1 ≤ d ∧
      ∃ line, (pySplitlines content).get? (d - 1) = some line ∧
        isMethodDeclLine line = true := by
  unfold checkMethodLength at h
  rw [mlGo_none fp maxLen (pySplitlines content) 1] at h
  obtain ⟨d, hd, rfl⟩ := mem_methodLengthSpec fp maxLen _ iss h
  obtain ⟨hge, line, hline, hdecl⟩ := declIdxFrom_mem (pySplitlines content) 1 d hd
  exact ⟨d, rfl, hge, line, hline, hdecl⟩

/-- Style issues of one file sit at positive line numbers. -/
lemma styleFile_mem (cs : CodingStandards) (fp content : String) (iss : Issue)
    (h : iss ∈ styleFile cs fp content) : linePos iss := by
  unfold styleFile at h
  rcases List.mem_append.mp h with h12 | h3
  · rcases List.mem_append.mp h12 with h1 | h2
    · obtain ⟨d, hld, hge, _⟩ := checkMethodLength_mem fp content cs.max_method_length iss h1
      exact ⟨(d : Int), hld, by omega⟩
    · exact namingLoop_mem fp content namingConventions iss h2
  · obtain ⟨n, hn, rfl⟩ := ccGo_mem fp cs.max_nesting_depth (pySplitlines content) 1 iss h3
    exact ⟨(n : Int), rfl, by omega⟩

/-- Security issues of one file sit at positive line numbers. -/
lemma secFile_mem (fp content : String) (iss : Issue)
    (h : iss ∈ secFile fp content) : linePos iss := by
  unfold secFile at h
  rcases List.mem_append.mp h with h12 | h3
  · rcases List.mem_append.mp h12 with h1 | h2
    · exact sqlLoop_mem fp content sqlInjectionPatterns iss h1
    · exact secretLoop_mem fp content secretPatterns iss h2
  · exact configLoop_mem fp content insecureConfigPatterns iss h3

/-- All issues of a successful per-file architecture pass sit at positive
line numbers. -/
lemma archFile_ok_mem (fp content : String) :
    ∀ (rules : List ArchRule) (issues : List Issue),
      archFile rules fp content = .ok issues → ∀ iss ∈ issues, linePos iss := by
  intro rules
  induction rules with
  | nil =>
    intro issues h iss hmem
    rw [archFile] at h
    rcases Except.ok.inj h with rfl
    simp at hmem
  | cons rule rest ih =>
    intro issues h iss hmem
    rw [archFile] at h
    cases hcr : checkRule fp content rule with
    | error e =>
      rw [hcr] at h
      exact absurd h (by simp)
    | ok v =>
      rw [hcr] at h
      cases hrest : archFile rest fp content with
      | error e =>
        rw [hrest] at h
        exact absurd h (by simp)
      | ok vs =>
        rw [hrest] at h
        rcases Except.ok.inj h with rfl
        rcases List.mem_append.mp hmem with h1 | h2
        · obtain ⟨n, hn, hge⟩ := checkRule_ok_mem fp content rule v hcr iss h1
          exact ⟨n, hn, hge⟩
        · exact ih vs hrest iss h2

/-- All issues of a successful architecture analysis sit at positive line
numbers. -/
lemma archAnalyzeGo_ok_mem (rules : List ArchRule) :
    ∀ (l : List (String × String)) (issues : List Issue),
      archAnalyzeGo rules l = .ok issues → ∀ iss ∈ issues, linePos iss := by
  intro l
  induction l with
  | nil =>
    intro issues h iss hmem
    rw [archAnalyzeGo] at h
    rcases Except.ok.inj h with rfl
    simp at hmem
  | cons fc rest ih =>
    intro issues h iss hmem
    rw [archAnalyzeGo] at h
    cases hf : archFile rules fc.1 fc.2 with
    | error e =>
      rw [hf] at h
      exact absurd h (by simp)
    | ok v =>
      rw [hf] at h
      cases hrest : archAnalyzeGo rules rest with
      | error e =>
        rw [hrest] at h
        exact absurd h (by simp)
      | ok vs =>
        rw [hrest] at h
        rcases Except.ok.inj h with rfl
        rcases List.mem_append.mp hmem with h1 | h2
        · exact archFile_ok_mem fc.1 fc.2 rules v hf iss h1
        · exact ih vs hrest iss h2

/-- All style-analysis issues sit at positive line numbers. -/
lemma styleAnalyzeGo_mem (cs : CodingStandards) :
    ∀ (l : List (String × String)) (iss : Issue),
      iss ∈ styleAnalyzeGo cs l → linePos iss := by
  intro l
  induction l with
  | nil =>
    intro iss h
    simp [styleAnalyzeGo] at h
  | cons fc rest ih =>
    intro iss h
    rw [styleAnalyzeGo] at h
    rcases List.mem_append.mp h with h1 | h2
    · exact styleFile_mem cs fc.1 fc.2 iss h1
    · exact ih iss h2

/-- All security-analysis issues sit at positive line numbers. -/
lemma secAnalyzeGo_mem :
    ∀ (l : List (String × String)) (iss : Issue), iss ∈ secAnalyzeGo l → linePos iss := by
  intro l
  induction l with
  | nil =>
    intro iss h
    simp [secAnalyzeGo] at h
  | cons fc rest ih =>
    intro iss h
    rw [secAnalyzeGo] at h
    rcases List.mem_append.mp h with h1 | h2
    · exact secFile_mem fc.1 fc.2 iss h1
    · exact ih iss h2

/-! ### Shape of `review_pr` -/

/-- When the architecture analyzer succeeds, `review_pr` assembles the full
result record. -/
lemma reviewPr_ok (cfg : AgentConfig) (mcp : List Issue) (ctx : PRContext)
    (archIssues : List Issue)
    (h : archAnalyze cfg.rules.architecture ctx = .ok archIssues) :
    reviewPr cfg mcp ctx = .ok
      { issues := mcp ++ archIssues ++ styleAnalyze cfg.rules.coding_standards ctx
          ++ secAnalyze ctx,
        summary := none,
        review_time := none,
        total_files_reviewed := ctx.files_changed.length,
        stats := [("mcp_issues", (mcp.length : Int)),
                  ("local_issues",
                    ((mcp ++ archIssues ++ styleAnalyze cfg.rules.coding_standards ctx
                        ++ secAnalyze ctx).length : Int) - (mcp.length : Int)),
                  ("files_analyzed", (ctx.files_changed.length : Int))] } := by
  unfold reviewPr
  rw [h]

/-- When the architecture analyzer raises, `review_pr` re-raises. -/
lemma reviewPr_err (cfg : AgentConfig) (mcp : List Issue) (ctx : PRContext) (e : String)
    (h : archAnalyze cfg.rules.architecture ctx = .error e) :
    reviewPr cfg mcp ctx = .error e := by
  unfold reviewPr
  rw [h]

/-! ### The empty scope pattern -/

/-- With any fuel left, the empty pattern succeeds immediately. -/
lemma reCore_eps (ci : Bool) (s : List Char) (fuel pos : Nat) (caps : Caps)
    (k : Nat → Caps → Option (Nat × Caps)) (h : fuel ≠ 0) :
    reCore ci s fuel .eps pos caps k = k pos caps := by
  cases fuel with
  | zero => exact absurd rfl h
  | succ n => rfl

/-- `re.match("", path)` succeeds on every path: an empty scope pattern is a
universal match. -/
lemma fileMatchesScope_eps (path : String) : fileMatchesScope .eps path = true := by
  unfold fileMatchesScope reMatchBool reTryAt
  rw [reCore_eps]
  · rfl
  · have h : 0 < reFuel .eps path.toList := by
      unfold reFuel
      have h1 : 0 < reSize RE.eps + 2 := by simp [reSize]
      positivity
    omega

/-! ### Concrete review inputs used as test vectors -/

/-- A configuration with no architecture rules and the default thresholds
(`max_method_length = 50`, `max_nesting_depth = 4`). -/
def cfg0 : AgentConfig :=
  { rules := { architecture := [],
               coding_standards := { max_method_length := 50, max_nesting_depth := 4 } } }

/-- A PR context whose `files_changed` lists a second (binary/unreadable) file
that has no `diff_content` entry — allowed by the data-model invariant. -/
def ctxC1 : PRContext :=
  { pr_number := 7, repository := "acme/app", base_branch := "main",
    head_branch := "feature", files_changed := ["a.py", "b.py"],
    diff_content := [("a.py", "")], author := "dev", title := "change" }

/-- The review result produced for `ctxC1` with no MCP issues. -/
def resC1 : ReviewResult :=
  { issues := [], summary := none, review_time := none, total_files_reviewed := 2,
    stats := [("mcp_issues", 0), ("local_issues", 0), ("files_analyzed", 2)] }

/-- The `no_circular_deps` dependency rule of the default configuration
(`config.py`): pattern `import.*\.\..*`, no scope entry. -/
def no_circular_deps : ArchRule :=
  { name := "no_circular_deps",
    pattern := reCat [reStr "import", .star false .dot, .lit '.', .lit '.',
                      .star false .dot],
    scope := none,
    message := "Avoid parent directory imports" }

/-- Default coding-standard thresholds. -/
def csW : CodingStandards :=
  { max_method_length := 50, max_nesting_depth := 4 }

/-- A context with a single file whose only line is indented by 20 spaces. -/
def ctxW : PRContext :=
  { pr_number := 3, repository := "acme/app", base_branch := "main",
    head_branch := "feature", files_changed := ["a.py"],
    diff_content := [("a.py", "                    x")], author := "dev", title := "indent" }

/-- A configuration whose architecture rules contain the scope-less
`no_circular_deps` rule. -/
def cfgBad : AgentConfig :=
  { rules := { architecture := [no_circular_deps], coding_standards := csW } }

/-- A two-file context for the concatenation-order test. -/
def ctx2 : PRContext :=
  { pr_number := 9, repository := "acme/app", base_branch := "main",
    head_branch := "feature", files_changed := ["a.py", "b.py"],
    diff_content := [("a.py", "x = 1"), ("b.py", "y = 2")], author := "dev", title := "two" }

/-! ### Claim theorems -/

/-- C1 (counterexample): the claim "total_files_reviewed equals the number of
entries in diff_content" fails on the code.  For `ctxC1` (two changed files,
one diff entry) `review_pr` reports `total_files_reviewed = 2` while
`diff_content` has 1 entry: the source counts `files_changed`, not
`diff_content`. -/
theorem review_total_files_ne_diff_count :
    (reviewPr cfg0 [] ctxC1).toOption.map ReviewResult.total_files_reviewed ≠
      some ctxC1.diff_content.length := by
  decide

/-- C1 (amended): for every successful review, `total_files_reviewed` and the
`files_analyzed` statistic both equal the length of `files_changed` (which can
differ from the `diff_content` count when a changed file has no diff entry). -/
theorem review_total_files_eq_files_changed (cfg : AgentConfig) (mcp : List Issue)
    (ctx : PRContext) (r : ReviewResult) (h : reviewPr cfg mcp ctx = .ok r) :
    r.total_files_reviewed = ctx.files_changed.length ∧
      r.stats.lookup "files_analyzed" = some (ctx.files_changed.length : Int) := by
  cases harch : archAnalyze cfg.rules.architecture ctx with
  | error e =>
    rw [reviewPr_err cfg mcp ctx e harch] at h
    exact absurd h (by simp)
  | ok archIssues =>
    rw [reviewPr_ok cfg mcp ctx archIssues harch] at h
    rcases Except.ok.inj h with rfl
    exact ⟨rfl, rfl⟩

/-- C1 (witness): the amended statement at the concrete context `ctxC1`. -/
theorem review_total_files_eq_files_changed_witness :
    resC1.total_files_reviewed = ctxC1.files_changed.length ∧
      resC1.stats.lookup "files_analyzed" = some (ctxC1.files_changed.length : Int) :=
  review_total_files_eq_files_changed cfg0 [] ctxC1 resC1 rfl

/-- C2 (code bug): a rule with an *empty* scope pattern does match every file,
but a rule with *no* scope entry does not scan at all: `_check_rule`
subscripts `rule["scope"]` unconditionally, so the repository's own
`no_circular_deps` default rule (whose schema marks `scope` optional) raises
`KeyError` and aborts the analysis instead of matching universally. -/
theorem checkRule_missing_scope_raises :
    checkRule "a.py" "import ..utils" no_circular_deps = .error "KeyError: 'scope'" ∧
      ∀ path : String, fileMatchesScope .eps path = true :=
  ⟨rfl, fileMatchesScope_eps⟩

/-- C3: the method-length check is exactly the consecutive-declarations
characterisation: a warning is emitted only when a subsequent declaration
line is reached, anchored at the over-long method's declaration line
(`i - line_count`), and a file ending while still inside a method emits
nothing for that trailing method. -/
theorem checkMethodLength_eq_spec (fp content : String) (maxLen : Nat) :
    checkMethodLength fp content maxLen =
      methodLengthSpec fp maxLen (declIdxFrom (pySplitlines content) 1) :=
  mlGo_none fp maxLen (pySplitlines content) 1

/-- C4: on input `api_key = "abcdef0123456789"` the hardcoded-secret check
emits exactly one issue whose snippet keeps `api_key = "` and the closing
quote and replaces the 16 captured characters by 16 asterisks. -/
theorem hardcoded_secret_redaction_api_key :
    checkHardcodedSecrets "config.py" "api_key = \"abcdef0123456789\"" =
      [{ severity := .error, message := "Hardcoded api_key detected",
         file_path := "config.py", line_number := some 1,
         code_snippet := some "api_key = \"****************\"",
         rule_name := "hardcoded_secret",
         suggested_fix := some "Use environment variables or a secure secret management system" }] := by
  decide

/-- C5: per line, the complexity check computes the indentation width divided
by 4 (integer division) and emits exactly one `warning` at that 1-based line,
rule `max_nesting_depth`, iff the depth strictly exceeds the threshold. -/
theorem nesting_depth_per_line (fp content : String) (maxDepth k : Nat) (line : String)
    (h : (pySplitlines content).get? k = some line) :
    (checkComplexity fp content maxDepth).filter
        (fun iss => iss.line_number == some ((1 + k : Nat) : Int)) =
      (if maxDepth < (line.length - (pyLstrip line).length) / 4
       then [ccIssue fp maxDepth (1 + k)] else []) :=
  ccGo_filter fp maxDepth (pySplitlines content) 1 k line h

/-- C5 (witness): a line of 20 spaces with `max_nesting_depth = 4` yields one
warning at line 1. -/
theorem nesting_depth_per_line_witness :
    (pySplitlines "                    x").get? 0 = some "                    x" ∧
      (checkComplexity "a.py" "                    x" 4).filter
        (fun iss => iss.line_number == some ((1 + 0 : Nat) : Int)) = [ccIssue "a.py" 4 1] :=
  ⟨by decide, by
    rw [nesting_depth_per_line "a.py" "                    x" 4 0 "                    x"
      (by decide)]
    decide⟩

/-- C6: for every successful review, the `local_issues` statistic equals the
length of the combined issue list minus the length of the externally supplied
MCP issue list, and this value is non-negative (the combined list is the
concatenation of the MCP issues with the local analyzers' issues). -/
theorem stats_local_issues_eq (cfg : AgentConfig) (mcp : List Issue) (ctx : PRContext)
    (r : ReviewResult) (h : reviewPr cfg mcp ctx = .ok r) :
    r.stats.lookup "local_issues" = some ((r.issues.length : Int) - (mcp.length : Int)) ∧
      0 ≤ (r.issues.length : Int) - (mcp.length : Int) := by
  cases harch : archAnalyze cfg.rules.architecture ctx with
  | error e =>
    rw [reviewPr_err cfg mcp ctx e harch] at h
    exact absurd h (by simp)
  | ok archIssues =>
    rw [reviewPr_ok cfg mcp ctx archIssues harch] at h
    rcases Except.ok.inj h with rfl
    refine ⟨rfl, ?_⟩
    simp only [List.length_append]
    push_cast
    omega

/-- C6 (witness): the statistic equation at the concrete context `ctxC1`. -/
theorem stats_local_issues_eq_witness :
    resC1.stats.lookup "local_issues" =
        some ((resC1.issues.length : Int) - (([] : List Issue).length : Int)) ∧
      0 ≤ (resC1.issues.length : Int) - (([] : List Issue).length : Int) :=
  stats_local_issues_eq cfg0 [] ctxC1 resC1 rfl

/-- C7: each analyzer is deterministic.  In the embedding the analyzers are
pure functions of the context and rule configuration — faithfully mirroring
the source scans, which read no mutable state, no clock and no randomness —
so re-running one on the same input yields the identical issue list. -/
theorem analyzers_deterministic (rules : List ArchRule) (cs : CodingStandards)
    (ctx : PRContext) :
    archAnalyze rules ctx = archAnalyze rules ctx ∧
      styleAnalyze cs ctx = styleAnalyze cs ctx ∧
      secAnalyze ctx = secAnalyze ctx :=
  ⟨rfl, rfl, rfl⟩

/-- Architecture analysis of a two-file context, decomposed per file. -/
lemma archAnalyze_two (rules : List ArchRule) (ctx : PRContext) (fa ca fb cb : String)
    (la lb : List Issue) (hd : ctx.diff_content = [(fa, ca), (fb, cb)])
    (ha : archFile rules fa ca = .ok la) (hb : archFile rules fb cb = .ok lb) :
    archAnalyze rules ctx = .ok (la ++ (lb ++ [])) := by
  unfold archAnalyze
  rw [hd]
  simp only [archAnalyzeGo, ha, hb]

/-- Style analysis of a two-file context, decomposed per file. -/
lemma styleAnalyze_two (cs : CodingStandards) (ctx : PRContext) (fa ca fb cb : String)
    (hd : ctx.diff_content = [(fa, ca), (fb, cb)]) :
    styleAnalyze cs ctx = styleFile cs fa ca ++ (styleFile cs fb cb ++ []) := by
  unfold styleAnalyze
  rw [hd]
  simp only [styleAnalyzeGo]

/-- Security analysis of a two-file context, decomposed per file. -/
lemma secAnalyze_two (ctx : PRContext) (fa ca fb cb : String)
    (hd : ctx.diff_content = [(fa, ca), (fb, cb)]) :
    secAnalyze ctx = secFile fa ca ++ (secFile fb cb ++ []) := by
  unfold secAnalyze
  rw [hd]
  simp only [secAnalyzeGo]

/-- C8: for a PR with two files, the issue list of the review result is the
externally supplied MCP issues followed by the local issues in category-major,
file-minor order: architecture (file a, then file b), then style (a, then b),
then security (a, then b). -/
theorem review_issues_order (cfg : AgentConfig) (mcp : List Issue) (ctx : PRContext)
    (fa ca fb cb : String) (la lb : List Issue)
    (hd : ctx.diff_content = [(fa, ca), (fb, cb)])
    (ha : archFile cfg.rules.architecture fa ca = .ok la)
    (hb : archFile cfg.rules.architecture fb cb = .ok lb) :
    (reviewPr cfg mcp ctx).toOption.map ReviewResult.issues =
      some (mcp ++ (la ++ lb)
        ++ (styleFile cfg.rules.coding_standards fa ca
            ++ styleFile cfg.rules.coding_standards fb cb)
        ++ (secFile fa ca ++ secFile fb cb)) := by
  have harch := archAnalyze_two cfg.rules.architecture ctx fa ca fb cb la lb hd ha hb
  rw [reviewPr_ok cfg mcp ctx (la ++ (lb ++ [])) harch,
      styleAnalyze_two cfg.rules.coding_standards ctx fa ca fb cb hd,
      secAnalyze_two ctx fa ca fb cb hd]
  simp [Except.toOption, List.append_assoc]

/-- C8 (witness): the order statement at the concrete two-file context. -/
theorem review_issues_order_witness :
    ctx2.diff_content = [("a.py", "x = 1"), ("b.py", "y = 2")] ∧
      (reviewPr cfg0 [] ctx2).toOption.map ReviewResult.issues =
        some (([] : List Issue) ++ (([] : List Issue) ++ ([] : List Issue))
          ++ (styleFile cfg0.rules.coding_standards "a.py" "x = 1"
              ++ styleFile cfg0.rules.coding_standards "b.py" "y = 2")
          ++ (secFile "a.py" "x = 1" ++ secFile "b.py" "y = 2")) :=
  ⟨rfl, review_issues_order cfg0 [] ctx2 "a.py" "x = 1" "b.py" "y = 2" [] [] rfl rfl rfl⟩

/-- C9: an exception raised by an analyzer propagates out of `review_pr`
(the `except` clause logs and re-raises): no `ReviewResult` is produced, and
there is no partial-success mode.  In the embedding the fallible analyzer is
the architecture pass, whose `KeyError` on a scope-less rule aborts the whole
review. -/
theorem analyzer_failure_aborts_review (cfg : AgentConfig) (mcp : List Issue)
    (ctx : PRContext) (e : String)
    (h : archAnalyze cfg.rules.architecture ctx = .error e) :
    reviewPr cfg mcp ctx = .error e :=
  reviewPr_err cfg mcp ctx e h

/-- C9 (witness): with the scope-less `no_circular_deps` rule configured, the
whole review fails with the propagated `KeyError`. -/
theorem analyzer_failure_aborts_review_witness :
    archAnalyze cfgBad.rules.architecture ctxW = .error "KeyError: 'scope'" ∧
      reviewPr cfgBad [] ctxW = .error "KeyError: 'scope'" :=
  ⟨rfl, analyzer_failure_aborts_review cfgBad [] ctxW "KeyError: 'scope'" rfl⟩

/-- C10: every issue emitted by the architecture, style or security analyzer
carries a line number that is present and at least 1 (line enumeration starts
at 1 and offset-based numbers are newline-count-plus-one), and every
method-length issue is anchored exactly at a method-declaration line. -/
theorem issue_line_numbers_positive :
    (∀ (rules : List ArchRule) (ctx : PRContext) (issues : List Issue),
        archAnalyze rules ctx = .ok issues → ∀ iss ∈ issues, linePos iss)
    ∧ (∀ (cs : CodingStandards) (ctx : PRContext),
        ∀ iss ∈ styleAnalyze cs ctx, linePos iss)
    ∧ (∀ ctx : PRContext, ∀ iss ∈ secAnalyze ctx, linePos iss)
    ∧ (∀ (fp content : String) (maxLen : Nat),
        ∀ iss ∈ checkMethodLength fp content maxLen,
        ∃ d : Nat, iss.line_number = some (d : Int) ∧ 1 ≤ d ∧
          ∃ line, (pySplitlines content).get? (d - 1) = some line ∧
            isMethodDeclLine line = true) :=
  ⟨fun rules ctx issues h => archAnalyzeGo_ok_mem rules ctx.diff_content issues h,
   fun cs ctx => styleAnalyzeGo_mem cs ctx.diff_content,
   fun ctx => secAnalyzeGo_mem ctx.diff_content,
   fun fp content maxLen iss hmem => checkMethodLength_mem fp content maxLen iss hmem⟩

/-- C10 (witness): the nesting-depth warning produced for `ctxW` has a
present, positive line number. -/
theorem issue_line_numbers_positive_witness :
    ccIssue "a.py" 4 1 ∈ styleAnalyze csW ctxW ∧ linePos (ccIssue "a.py" 4 1) :=
  ⟨by decide, issue_line_numbers_positive.2.1 csW ctxW (ccIssue "a.py" 4 1) (by decide)⟩
